import Mathlib

/-!
Verification development for the image transformation and compression pipeline
of `app.py` (Isaac177/computer-vision-app).

The Python source is shallowly embedded: every pipeline function of `app.py`
becomes a Lean definition with the same name, fallible code (Python
`try/except` around OpenCV / Pillow calls that can raise) becomes `Option`,
and the external OpenCV / Pillow primitives the source calls are modelled at
the level of their documented and implemented behavior (channel dispatch,
dimension arithmetic, fixed-point color weights, border handling, keyword
argument handling).  Machine samples are `Nat` values; all arithmetic that the
claims depend on is exact integer arithmetic in the libraries themselves
(fixed-point luma, fixed-point Gaussian kernel, integer gradient kernels), so
no floating-point approximation is involved in the verified statements.
-/

namespace VisionApp

/-- Canonical in-memory image: a dense array of 8-bit samples.  `channels = 1`
represents a 2-D (single-channel) numpy array, `channels = 3` a BGR color
array, `channels = 4` an array with an alpha channel.  `pix i j c` is the
sample at row `i`, column `j`, channel `c`; values outside the stated bounds
are irrelevant junk. -/
structure Bitmap where
  height : Nat
  width : Nat
  channels : Nat
  pix : Nat → Nat → Nat → Nat

/-- Channel-order swap used by `cv2.COLOR_RGB2BGR` and `cv2.COLOR_BGR2RGB`:
channels 0 and 2 trade places, any further channel stays. -/
def swapRB (c : Nat) : Nat :=
  if c = 0 then 2 else if c = 2 then 0 else c

/-- Models `cv2.cvtColor` with `COLOR_RGB2BGR` / `COLOR_BGR2RGB` (the same
reordering in both directions).  OpenCV requires a 3- or 4-channel source and
raises `cv2.error` otherwise, which the embedding renders as `none`. -/
def cvtColorSwapRB (b : Bitmap) : Option Bitmap :=
  if b.channels = 3 ∨ b.channels = 4 then
    some ⟨b.height, b.width, b.channels, fun i j c => b.pix i j (swapRB c)⟩
  else none

/-- Models `cv2.cvtColor` with `COLOR_RGBA2RGB`: the alpha channel is dropped
(straight channel drop, no blending); requires a 4-channel source. -/
def cvtColorRGBA2RGB (b : Bitmap) : Option Bitmap :=
  if b.channels = 4 then
    some ⟨b.height, b.width, 3, b.pix⟩
  else none

/-- OpenCV's fixed-point BT.601 luma: with `yuv_shift = 14` the weights are
`B2Y = 1868`, `G2Y = 9617`, `R2Y = 4899` (summing to `2 ^ 14`) and the result
is descaled with rounding.  Arguments are in BGR order, matching the storage
order of the canonical bitmap. -/
def lumaY (bl g r : Nat) : Nat :=
  (bl * 1868 + g * 9617 + r * 4899 + 8192) / 16384

/-- The pure pixel computation of `cv2.COLOR_BGR2GRAY`: a 2-D (channel count
1) array of luma values. -/
def grayOf (b : Bitmap) : Bitmap :=
  ⟨b.height, b.width, 1, fun i j _ => lumaY (b.pix i j 0) (b.pix i j 1) (b.pix i j 2)⟩

/-- Models `cv2.cvtColor` with `COLOR_BGR2GRAY`; requires a 3- or 4-channel
source (the fourth channel, if present, is ignored by the weighting). -/
def cvtColorBGR2GRAY (b : Bitmap) : Option Bitmap :=
  if b.channels = 3 ∨ b.channels = 4 then some (grayOf b) else none

/-- Embedding of `convert_to_cv2` (app.py lines 16-26): `np.array` of the PIL
image is the input bitmap (PIL modes L and P give 2-D arrays, i.e.
`channels = 1`; LA gives 2 channels; RGB 3; RGBA/CMYK 4).  A 4-channel array
is first flattened with `COLOR_RGBA2RGB`, then `COLOR_RGB2BGR` is applied
unconditionally; the surrounding `try/except` turns any `cv2.error` into
`None`. -/
def convert_to_cv2 (np : Bitmap) : Option Bitmap := do
  let a ← if np.channels = 4 then cvtColorRGBA2RGB np else some np
  cvtColorSwapRB a

/-- Integer box average over source rows `[r0, r1)` and columns `[c0, c1)` of
channel `c`; the model of the area-weighted pixel contribution of
`cv2.INTER_AREA` (an external resampling primitive; no verified claim examines
the resampled sample values, only the shape data). -/
def boxAverage (b : Bitmap) (h w i j c : Nat) : Nat :=
  let r0 := i * b.height / h
  let r1 := max (r0 + 1) ((i + 1) * b.height / h)
  let c0 := j * b.width / w
  let c1 := max (c0 + 1) ((j + 1) * b.width / w)
  ((Finset.Ico r0 r1).sum fun u => (Finset.Ico c0 c1).sum fun v => b.pix u v c) /
    ((r1 - r0) * (c1 - c0))

/-- Models `cv2.resize(src, (w, h), interpolation=cv2.INTER_AREA)`.  OpenCV
asserts that the source is non-empty and that either the destination size or
the scale factors are positive; `process_image` passes no scale factors, so a
zero destination dimension raises `cv2.error`, rendered as `none`. -/
def cvResize (b : Bitmap) (w h : Nat) : Option Bitmap :=
  if b.height = 0 ∨ b.width = 0 ∨ w = 0 ∨ h = 0 then none
  else some ⟨h, w, b.channels, fun i j c => boxAverage b h w i j c⟩

/-- An encoded JPEG buffer.  The byte-level codec is a trusted external
primitive; the model records exactly what determines the decoded result's
shape: the quality parameter and the source array. -/
structure JpegData where
  quality : Nat
  height : Nat
  width : Nat
  channels : Nat
  pix : Nat → Nat → Nat → Nat

/-- Models `cv2.imencode('.jpg', b, [IMWRITE_JPEG_QUALITY, q])`: succeeds for
non-empty 1-, 3- or 4-channel arrays (OpenCV's JPEG writer accepts exactly
these) and raises otherwise. -/
def imencodeJpg (q : Nat) (b : Bitmap) : Option JpegData :=
  if (b.channels = 1 ∨ b.channels = 3 ∨ b.channels = 4) ∧ 0 < b.height ∧ 0 < b.width then
    some ⟨q, b.height, b.width, b.channels, b.pix⟩
  else none

/-- Models `cv2.imdecode(enc, cv2.IMREAD_COLOR)`: a color read always yields a
3-channel BGR array of the stored dimensions; single-channel data is
replicated across the three channels, an alpha channel is dropped.
Quantization loss of the codec itself is external and not modelled; every
verified statement about the decoded result concerns its shape only. -/
def imdecodeColor (d : JpegData) : Bitmap :=
  ⟨d.height, d.width, 3, fun i j c => if d.channels = 1 then d.pix i j 0 else d.pix i j c⟩

/-- The lossy round-trip appearing in the Resize branch: JPEG-encode at the
given quality, then color-decode. -/
def jpegRoundTrip (q : Nat) (b : Bitmap) : Option Bitmap :=
  (imencodeJpg q b).map imdecodeColor

/-- OpenCV's `BORDER_REFLECT_101` index mapping (the default border of
`cv2.GaussianBlur`): reflection about the border pixel without repeating it,
`... 2 1 | 0 1 2 ... | w-2 w-3 ...`; closed form of `borderInterpolate`'s
reflection loop, with its special case for extent 1. -/
def reflect101 (p : Int) (len : Nat) : Nat :=
  if len ≤ 1 then 0
  else
    let q := p.natAbs % (2 * len - 2)
    if q < len then q else 2 * len - 2 - q

/-- The fixed-point Gaussian kernel `cv2.getGaussianKernel(5, sigma ≤ 0)`
selects for an aperture of 5: `[0.0625, 0.25, 0.375, 0.25, 0.0625]`, i.e.
`[16, 64, 96, 64, 16] / 256` in the 8-bit fixed-point filter (sigma is
derived from the kernel size when a non-positive sigma is passed, which pins
this small-kernel table). -/
def gaussKW : Nat → Nat
  | 0 => 16
  | 1 => 64
  | 2 => 96
  | 3 => 64
  | _ => 16

/-- One output sample of the 5×5 Gaussian filter: fixed-point separable
convolution with `BORDER_REFLECT_101` reads and a final rounding descale by
`2 ^ 16` (the product of the two `2 ^ 8` kernel scales). -/
def blurPixel (g : Bitmap) (i j : Nat) : Nat :=
  (((Finset.range 5).sum fun u => (Finset.range 5).sum fun v =>
      gaussKW u * gaussKW v *
        g.pix (reflect101 ((i : Int) + u - 2) g.height)
              (reflect101 ((j : Int) + v - 2) g.width) 0) + 32768) / 65536

/-- Models `cv2.GaussianBlur(gray, (5, 5), 0)` on a single-channel array. -/
def gaussianBlur5 (g : Bitmap) : Bitmap :=
  ⟨g.height, g.width, 1, fun i j _ => blurPixel g i j⟩

/-- `BORDER_REPLICATE` index clamping, used by the Sobel stage inside
`cv2.Canny`. -/
def clampIdx (p : Int) (len : Nat) : Nat :=
  if p < 0 then 0 else if (len : Int) ≤ p then len - 1 else p.toNat

/-- Smoothing row of the 3×3 Sobel kernels. -/
def sobelSmooth : Nat → Int
  | 0 => 1
  | 1 => 2
  | _ => 1

/-- Derivative row of the 3×3 Sobel kernels. -/
def sobelDeriv : Nat → Int
  | 0 => -1
  | 1 => 0
  | _ => 1

/-- Horizontal derivative `cv2.Sobel(g, CV_16S, 1, 0, ksize=3)` with
`BORDER_REPLICATE`, as invoked inside `cv2.Canny`. -/
def sobelDx (g : Bitmap) (i j : Nat) : Int :=
  (Finset.range 3).sum fun u => (Finset.range 3).sum fun v =>
    sobelSmooth u * sobelDeriv v *
      (g.pix (clampIdx ((i : Int) + u - 1) g.height)
             (clampIdx ((j : Int) + v - 1) g.width) 0 : Int)

/-- Vertical derivative `cv2.Sobel(g, CV_16S, 0, 1, ksize=3)` with
`BORDER_REPLICATE`. -/
def sobelDy (g : Bitmap) (i j : Nat) : Int :=
  (Finset.range 3).sum fun u => (Finset.range 3).sum fun v =>
    sobelDeriv u * sobelSmooth v *
      (g.pix (clampIdx ((i : Int) + u - 1) g.height)
             (clampIdx ((j : Int) + v - 1) g.width) 0 : Int)

/-- L1 gradient magnitude `|dx| + |dy|` (the `L2gradient=False` default of
`cv2.Canny`); OpenCV pads its magnitude buffer with zero rows/columns around
the image, so out-of-range positions read as 0. -/
def magAt (g : Bitmap) (p q : Int) : Nat :=
  if 0 ≤ p ∧ p < (g.height : Int) ∧ 0 ≤ q ∧ q < (g.width : Int) then
    (sobelDx g p.toNat q.toNat).natAbs + (sobelDy g p.toNat q.toNat).natAbs
  else 0

/-- `tan(22.5°)` in 15-bit fixed point, OpenCV's direction-bucket constant. -/
def TG22 : Nat := 13573

/-- Non-maximum suppression test of `cv2.Canny`: a pixel survives when its
magnitude exceeds the low threshold and is a local maximum along the
quantized gradient direction, with OpenCV's exact fixed-point bucket tests
and strict/non-strict neighbor comparisons. -/
def cannyCand (g : Bitmap) (low : Nat) (i j : Nat) : Bool :=
  let dx := sobelDx g i j
  let dy := sobelDy g i j
  let m := dx.natAbs + dy.natAbs
  if m ≤ low then false
  else
    let x := dx.natAbs
    let y := dy.natAbs * 32768
    let tg22x := x * TG22
    if y < tg22x then
      decide (magAt g i ((j : Int) - 1) < m) && decide (magAt g i ((j : Int) + 1) ≤ m)
    else
      let tg67x := tg22x + (x + x) * 32768
      if tg67x < y then
        decide (magAt g ((i : Int) - 1) j < m) && decide (magAt g ((i : Int) + 1) j ≤ m)
      else
        let s : Int := if (decide (dx < 0)) ≠ (decide (dy < 0)) then -1 else 1
        decide (magAt g ((i : Int) - 1) ((j : Int) - s) < m) &&
          decide (magAt g ((i : Int) + 1) ((j : Int) + s) < m)

/-- A surviving pixel whose magnitude also exceeds the high threshold is a
definite (strong) edge; hysteresis grows the edge set from these. -/
def cannyStrong (g : Bitmap) (low high : Nat) (i j : Nat) : Bool :=
  cannyCand g low i j && decide (high < (sobelDx g i j).natAbs + (sobelDy g i j).natAbs)

/-- The eight neighbor offsets of the hysteresis flood fill. -/
def nbors : List (Int × Int) :=
  [(-1, -1), (-1, 0), (-1, 1), (0, -1), (0, 1), (1, -1), (1, 0), (1, 1)]

/-- One growth step of hysteresis: a surviving (weak) pixel adjacent to the
current edge set joins it. -/
def hystStep (g : Bitmap) (low : Nat) (cur : Nat → Nat → Bool) : Nat → Nat → Bool :=
  fun i j =>
    cur i j ||
      (cannyCand g low i j &&
        nbors.any fun d =>
          let p := (i : Int) + d.1
          let q := (j : Int) + d.2
          decide (0 ≤ p) && decide (p < (g.height : Int)) &&
            decide (0 ≤ q) && decide (q < (g.width : Int)) && cur p.toNat q.toNat)

/-- Iterated hysteresis growth starting from the strong edges; `height*width`
steps reach the fixed point of the flood fill. -/
def hystIter (g : Bitmap) (low high : Nat) : Nat → Nat → Nat → Bool
  | 0 => cannyStrong g low high
  | n + 1 => hystStep g low (hystIter g low high n)

/-- Models `cv2.Canny(g, lowThresh, highThresh)` on a single-channel 8-bit
array: OpenCV swaps the thresholds when passed out of order, suppresses
non-maxima, and flood-fills from strong edges; an edge pixel is written as
255, every other pixel as 0. -/
def canny (lowThresh highThresh : Nat) (g : Bitmap) : Bitmap :=
  let low := min lowThresh highThresh
  let high := max lowThresh highThresh
  ⟨g.height, g.width, 1, fun i j _ =>
    if hystIter g low high (g.height * g.width) i j then 255 else 0⟩

/-- The transformation selector of the app's selectbox (app.py line 102). -/
inductive TransformKind
  | Resized
  | Grayscale
  | EdgeDetection
deriving DecidableEq

/-- The UI label of each selector entry, exactly as in the source list
`["Resized", "Grayscale", "Edge Detection"]`. -/
def label : TransformKind → String
  | .Resized => "Resized"
  | .Grayscale => "Grayscale"
  | .EdgeDetection => "Edge Detection"

/-- Embedding of `process_image` (app.py lines 28-58).  The body is wrapped
in `try/except`, so any raising OpenCV call yields `(None, None)`, rendered
as `none`; a successful run returns the processed array together with the
array handed to the preview (`display`).  The `compressionQuality` parameter
is accepted and unused, exactly as in the source. -/
def process_image (img : Bitmap) (t : TransformKind)
    (resizePercent edgeLow edgeHigh compressionQuality jpegQuality : Nat) :
    Option (Bitmap × Bitmap) :=
  match t with
  | .Resized =>
    if resizePercent ≠ 100 then do
      let width := img.width * resizePercent / 100
      let height := img.height * resizePercent / 100
      let resized ← cvResize img width height
      let encoded ← imencodeJpg jpegQuality resized
      let processed := imdecodeColor encoded
      let display ← cvtColorSwapRB processed
      return (processed, display)
    else do
      let display ← cvtColorSwapRB img
      return (img, display)
  | .Grayscale => do
    let g ← cvtColorBGR2GRAY img
    return (g, g)
  | .EdgeDetection => do
    let g ← cvtColorBGR2GRAY img
    let blurred := gaussianBlur5 g
    let processed := canny edgeLow edgeHigh blurred
    return (processed, processed)

/-- Output container format of the download encoder. -/
inductive ImgFormat
  | PNG
  | JPEG
deriving DecidableEq

/-- The artifact written into the download buffer: its container format, the
effective codec parameter (zlib level for PNG, quality for JPEG) and the
shape of the encoded array. -/
structure EncodedArtifact where
  format : ImgFormat
  level : Nat
  height : Nat
  width : Nat
  channels : Nat
deriving DecidableEq

/-- The keyword arguments app.py line 125 hands to Pillow's PNG save:
`optimize=True, compression_level=compression_quality` (booleans rendered as
0/1). -/
def pngSaveKwargs (compressionQuality : Nat) : List (String × Nat) :=
  [("optimize", 1), ("compression_level", compressionQuality)]

/-- Keyword lookup with a default; Pillow stores the save keywords in
`encoderinfo` and reads only the keys it knows, silently ignoring the rest. -/
def kwLookup (kwargs : List (String × Nat)) (key : String) (dflt : Nat) : Nat :=
  match kwargs.lookup key with
  | some v => v
  | none => dflt

/-- The zlib compression level Pillow's PNG writer actually uses: it reads the
keyword `compress_level` (not `compression_level`), and its zip encoder
compresses at `Z_BEST_COMPRESSION` (9) whenever `optimize` is set, ignoring
`compress_level`.  Modelled from Pillow's `PngImagePlugin._save` /
`ZipEncode.c`. -/
def pillowZlibLevel (kwargs : List (String × Nat)) : Nat :=
  if kwLookup kwargs "optimize" 0 ≠ 0 then 9
  else kwLookup kwargs "compress_level" 6

/-- Embedding of the download-encoding block of `main` (app.py lines
122-137): a 2-D array (`len(shape) == 2`, i.e. channel count 1) is saved as
PNG with the keyword set of line 125; otherwise the array is converted
BGR→RGB and saved as JPEG at `quality=jpeg_quality`.  A non-1-, non-3-channel
array would raise in `cv2.cvtColor` (2 channels) or in Pillow's JPEG writer
(4 channels), so only those two shapes produce an artifact. -/
def encodeForDownload (processed : Bitmap) (compressionQuality jpegQuality : Nat) :
    Option EncodedArtifact :=
  if processed.channels = 1 then
    some ⟨.PNG, pillowZlibLevel (pngSaveKwargs compressionQuality),
      processed.height, processed.width, 1⟩
  else if processed.channels = 3 then
    some ⟨.JPEG, jpegQuality, processed.height, processed.width, 3⟩
  else none

/-- Python's `str.lower()` on the ASCII labels involved: each character is
lower-cased. -/
def pyLower (s : String) : String := ⟨s.data.map Char.toLower⟩

/-- The download file name of app.py line 147:
`f"processed_{transform_option.lower()}.jpg"`. -/
def downloadFileName (t : TransformKind) : String :=
  "processed_" ++ pyLower (label t) ++ ".jpg"

/-- The download MIME type of app.py line 148, a literal. -/
def downloadMime : String := "image/jpeg"

/-- Error raised by Python arithmetic. -/
inductive PyError
  | zeroDivision
deriving DecidableEq

/-- Embedding of the size-reduction expression of app.py line 142:
`(original_size - processed_size) / original_size * 100`.  Python float
division raises `ZeroDivisionError` on a zero denominator (it does not return
an IEEE infinity), and the expression carries no guard. -/
def sizeReductionPercent (originalSize processedSize : ℚ) : Except PyError ℚ :=
  if originalSize = 0 then .error .zeroDivision
  else .ok ((originalSize - processedSize) / originalSize * 100)

/-- A solid-color (uniform) 3-channel bitmap, the shape `convert_to_cv2`
produces; used to instantiate the end-to-end scenarios. -/
def solidBitmap (h w c0 c1 c2 : Nat) : Bitmap :=
  ⟨h, w, 3, fun _ _ ch => if ch = 0 then c0 else if ch = 1 then c1 else c2⟩

/-- A solid-color predicate: every in-range sample of channel 0/1/2 equals
`c0`/`c1`/`c2`. -/
def Solid (b : Bitmap) (c0 c1 c2 : Nat) : Prop :=
  ∀ i j, i < b.height → j < b.width →
    b.pix i j 0 = c0 ∧ b.pix i j 1 = c1 ∧ b.pix i j 2 = c2

/-- A 2-D (single-channel) numpy array, as produced by `np.array` of a PIL
image in mode L or P (e.g. a grayscale PNG). -/
def gray2D (h w : Nat) (v : Nat) : Bitmap :=
  ⟨h, w, 1, fun _ _ _ => v⟩

/-! ### Supporting lemmas -/

theorem imdecodeColor_channels (d : JpegData) : (imdecodeColor d).channels = 3 := rfl

theorem cvtColorSwapRB_of_three (b : Bitmap) (h : b.channels = 3) :
    cvtColorSwapRB b =
      some ⟨b.height, b.width, b.channels, fun i j c => b.pix i j (swapRB c)⟩ := by
  simp [cvtColorSwapRB, h]

/-- The Resized branch with an active percentage is the composition: compute
the floored target size, resize, JPEG-encode at the requested quality, decode
in color, and convert the decoded result for display. -/
theorem resized_run (b : Bitmap) (p el eh cq jq : Nat) (hp : p ≠ 100) :
    process_image b .Resized p el eh cq jq =
      (cvResize b (b.width * p / 100) (b.height * p / 100)).bind fun r =>
        (imencodeJpg jq r).bind fun e =>
          some (imdecodeColor e,
            ⟨(imdecodeColor e).height, (imdecodeColor e).width, 3,
              fun i j c => (imdecodeColor e).pix i j (swapRB c)⟩) := by
  unfold process_image
  rw [if_pos hp]
  show ((cvResize b (b.width * p / 100) (b.height * p / 100)).bind fun resized =>
      (imencodeJpg jq resized).bind fun encoded =>
        (cvtColorSwapRB (imdecodeColor encoded)).bind fun display =>
          some (imdecodeColor encoded, display)) = _
  cases hr : cvResize b (b.width * p / 100) (b.height * p / 100) with
  | none => rfl
  | some r =>
    simp only [Option.some_bind]
    show ((imencodeJpg jq r).bind fun encoded =>
        (cvtColorSwapRB (imdecodeColor encoded)).bind fun display =>
          some (imdecodeColor encoded, display)) = _
    cases he : imencodeJpg jq r with
    | none => rfl
    | some e =>
      simp only [Option.some_bind]
      show ((cvtColorSwapRB (imdecodeColor e)).bind fun display =>
          some (imdecodeColor e, display)) = _
      rw [cvtColorSwapRB_of_three _ (imdecodeColor_channels e)]
      rfl

theorem reflect101_lt (p : Int) (len : Nat) (h : 0 < len) : reflect101 p len < len := by
  unfold reflect101
  by_cases h1 : len ≤ 1
  · rw [if_pos h1]
    exact h
  · rw [if_neg h1]
    have hq : p.natAbs % (2 * len - 2) < 2 * len - 2 := Nat.mod_lt _ (by omega)
    by_cases h2 : p.natAbs % (2 * len - 2) < len
    · simp [h2]
    · simp only [h2, if_false]
      omega

theorem clampIdx_lt (p : Int) (len : Nat) (h : 0 < len) : clampIdx p len < len := by
  unfold clampIdx
  by_cases hn : p < 0
  · rw [if_pos hn]
    exact h
  · rw [if_neg hn]
    by_cases hg : (len : Int) ≤ p
    · rw [if_pos hg]
      omega
    · rw [if_neg hg]
      omega

/-- On a bitmap whose in-range channel-0 samples are all `v`, every Gaussian
filter output sample is again `v`: the fixed-point kernel weights sum to
`2 ^ 16` and the rounding descale cancels exactly. -/
theorem blurPixel_const (g : Bitmap) (v : Nat) (hh : 0 < g.height) (hw : 0 < g.width)
    (hu : ∀ i j, i < g.height → j < g.width → g.pix i j 0 = v) (i j : Nat) :
    blurPixel g i j = v := by
  unfold blurPixel
  have hsum : ((Finset.range 5).sum fun u => (Finset.range 5).sum fun w =>
      gaussKW u * gaussKW w *
        g.pix (reflect101 ((i : Int) + u - 2) g.height)
              (reflect101 ((j : Int) + w - 2) g.width) 0) =
      (Finset.range 5).sum fun u => (Finset.range 5).sum fun w => gaussKW u * gaussKW w * v :=
    Finset.sum_congr rfl fun u _ => Finset.sum_congr rfl fun w _ => by
      rw [hu _ _ (reflect101_lt _ _ hh) (reflect101_lt _ _ hw)]
  rw [hsum]
  simp [Finset.sum_range_succ, gaussKW]
  omega

/-- On a uniform bitmap the horizontal Sobel response vanishes: the
derivative row sums to zero. -/
theorem sobelDx_const (g : Bitmap) (v : Nat) (hh : 0 < g.height) (hw : 0 < g.width)
    (hu : ∀ i j, i < g.height → j < g.width → g.pix i j 0 = v) (i j : Nat) :
    sobelDx g i j = 0 := by
  unfold sobelDx
  have hsum : ((Finset.range 3).sum fun u => (Finset.range 3).sum fun w =>
      sobelSmooth u * sobelDeriv w *
        (g.pix (clampIdx ((i : Int) + u - 1) g.height)
               (clampIdx ((j : Int) + w - 1) g.width) 0 : Int)) =
      (Finset.range 3).sum fun u => (Finset.range 3).sum fun w =>
        sobelSmooth u * sobelDeriv w * (v : Int) :=
    Finset.sum_congr rfl fun u _ => Finset.sum_congr rfl fun w _ => by
      rw [hu _ _ (clampIdx_lt _ _ hh) (clampIdx_lt _ _ hw)]
  rw [hsum]
  simp [Finset.sum_range_succ, sobelSmooth, sobelDeriv]

/-- On a uniform bitmap the vertical Sobel response vanishes. -/
theorem sobelDy_const (g : Bitmap) (v : Nat) (hh : 0 < g.height) (hw : 0 < g.width)
    (hu : ∀ i j, i < g.height → j < g.width → g.pix i j 0 = v) (i j : Nat) :
    sobelDy g i j = 0 := by
  unfold sobelDy
  have hsum : ((Finset.range 3).sum fun u => (Finset.range 3).sum fun w =>
      sobelDeriv u * sobelSmooth w *
        (g.pix (clampIdx ((i : Int) + u - 1) g.height)
               (clampIdx ((j : Int) + w - 1) g.width) 0 : Int)) =
      (Finset.range 3).sum fun u => (Finset.range 3).sum fun w =>
        sobelDeriv u * sobelSmooth w * (v : Int) :=
    Finset.sum_congr rfl fun u _ => Finset.sum_congr rfl fun w _ => by
      rw [hu _ _ (clampIdx_lt _ _ hh) (clampIdx_lt _ _ hw)]
  rw [hsum]
  simp [Finset.sum_range_succ, sobelSmooth, sobelDeriv]
  ring

/-- On a uniform bitmap the gradient magnitude is zero everywhere, so no
pixel survives the low-threshold test of non-maximum suppression. -/
theorem cannyCand_const_false (g : Bitmap) (v : Nat) (hh : 0 < g.height) (hw : 0 < g.width)
    (hu : ∀ i j, i < g.height → j < g.width → g.pix i j 0 = v) (low i j : Nat) :
    cannyCand g low i j = false := by
  unfold cannyCand
  rw [sobelDx_const g v hh hw hu i j, sobelDy_const g v hh hw hu i j]
  simp

/-- On a uniform bitmap the hysteresis iteration never marks any pixel. -/
theorem hystIter_const_false (g : Bitmap) (v : Nat) (hh : 0 < g.height) (hw : 0 < g.width)
    (hu : ∀ i j, i < g.height → j < g.width → g.pix i j 0 = v) (low high : Nat) :
    ∀ n i j, hystIter g low high n i j = false := by
  intro n
  induction n with
  | zero =>
    intro i j
    unfold hystIter cannyStrong
    rw [cannyCand_const_false g v hh hw hu low i j]
    rfl
  | succ n ih =>
    intro i j
    unfold hystIter hystStep
    rw [ih i j, cannyCand_const_false g v hh hw hu low i j]
    rfl

/-! ### Claim theorems -/

/-- C1: the size-report expression of line 142 performs the division
unguarded, so at `originalSizeMB = 0` it raises `ZeroDivisionError` instead
of reporting a defined N/A sentinel; this theorem evaluates the embedded
expression at the failing input for every processed size. -/
theorem c1_size_reduction_raises_at_zero (p : ℚ) :
    sizeReductionPercent 0 p = .error .zeroDivision := by
  simp [sizeReductionPercent]

/-- C3: with `resizePercent = 100` the Resized branch is the identity on the
processed bitmap — the input is returned unchanged as the first component,
with no resampling and no JPEG round-trip; only the preview copy is
channel-reordered, keeping the dimensions of `B`. -/
theorem c3_resize_identity_at_100 (b : Bitmap) (el eh cq jq : Nat)
    (hc : b.channels = 3) :
    ∃ d, process_image b .Resized 100 el eh cq jq = some (b, d) ∧
      d.height = b.height ∧ d.width = b.width ∧ d.channels = b.channels := by
  refine ⟨⟨b.height, b.width, b.channels, fun i j c => b.pix i j (swapRB c)⟩, ?_, rfl, rfl, rfl⟩
  unfold process_image
  rw [if_neg (by simp)]
  show (cvtColorSwapRB b).bind (fun display => some (b, display)) = _
  rw [cvtColorSwapRB_of_three b hc]
  rfl

/-- Witness for C3 at a concrete 4×4 solid bitmap. -/
theorem c3_resize_identity_at_100_witness :
    (solidBitmap 4 4 9 9 9).channels = 3 ∧
      ∃ d, process_image (solidBitmap 4 4 9 9 9) .Resized 100 100 200 6 85 =
          some (solidBitmap 4 4 9 9 9, d) ∧
        d.height = (solidBitmap 4 4 9 9 9).height ∧
        d.width = (solidBitmap 4 4 9 9 9).width ∧
        d.channels = (solidBitmap 4 4 9 9 9).channels :=
  ⟨rfl, c3_resize_identity_at_100 (solidBitmap 4 4 9 9 9) 100 200 6 85 rfl⟩

/-- C5: the Grayscale branch returns a single-channel bitmap of the same
height and width as its 3-channel input, and on a solid-color input every
output sample is exactly the fixed-point luma weighting of the solid BGR
color. -/
theorem c5_grayscale_props (b : Bitmap) (rp el eh cq jq c0 c1 c2 : Nat)
    (hc : b.channels = 3) :
    ∃ g, process_image b .Grayscale rp el eh cq jq = some (g, g) ∧
      g.height = b.height ∧ g.width = b.width ∧ g.channels = 1 ∧
      (Solid b c0 c1 c2 → ∀ i j, i < b.height → j < b.width →
        g.pix i j 0 = lumaY c0 c1 c2) := by
  refine ⟨grayOf b, ?_, rfl, rfl, rfl, ?_⟩
  · unfold process_image
    show (cvtColorBGR2GRAY b).bind (fun g => some (g, g)) = _
    simp [cvtColorBGR2GRAY, hc]
  · intro hs i j hi hj
    obtain ⟨h0, h1, h2⟩ := hs i j hi hj
    simp [grayOf, h0, h1, h2]

/-- Witness for C5: the 100×100 solid mid-gray scenario; note
`lumaY 128 128 128 = 128` so every output sample is the mid-gray value. -/
theorem c5_grayscale_props_witness :
    (solidBitmap 100 100 128 128 128).channels = 3 ∧
      (∃ g, process_image (solidBitmap 100 100 128 128 128) .Grayscale 100 100 200 6 85 =
          some (g, g) ∧
        g.height = (solidBitmap 100 100 128 128 128).height ∧
        g.width = (solidBitmap 100 100 128 128 128).width ∧
        g.channels = 1 ∧
        (Solid (solidBitmap 100 100 128 128 128) 128 128 128 →
          ∀ i j, i < (solidBitmap 100 100 128 128 128).height →
            j < (solidBitmap 100 100 128 128 128).width →
              g.pix i j 0 = lumaY 128 128 128)) ∧
      lumaY 128 128 128 = 128 :=
  ⟨rfl, c5_grayscale_props (solidBitmap 100 100 128 128 128) 100 100 200 6 85 128 128 128 rfl,
    by decide⟩

/-- C6 (code bug): the download encoder does dispatch on the channel count —
2-D arrays go to PNG, 3-channel arrays are RGB-converted and go to JPEG at
`jpegQuality` — but the PNG path does NOT use `pngCompressionLevel`: app.py
passes the keyword `compression_level`, which Pillow ignores (its keyword is
`compress_level`), and with `optimize=True` Pillow compresses at zlib level 9
for every slider value. -/
theorem c6_encoder_dispatch_level_ignored :
    (∀ cq, pillowZlibLevel (pngSaveKwargs cq) = 9) ∧
    (∀ b cq jq, b.channels = 1 →
      encodeForDownload b cq jq = some ⟨.PNG, 9, b.height, b.width, 1⟩) ∧
    (∀ b cq jq, b.channels = 3 →
      encodeForDownload b cq jq = some ⟨.JPEG, jq, b.height, b.width, 3⟩) := by
  refine ⟨fun cq => rfl, fun b cq jq h1 => ?_, fun b cq jq h3 => ?_⟩
  · simp [encodeForDownload, h1]
    rfl
  · simp [encodeForDownload, h3]

/-- Witness for C6: a 4×4 grayscale output saved with slider value 0 still
gets zlib level 9, and a 4×4 color output is saved as JPEG at quality 85. -/
theorem c6_encoder_dispatch_level_ignored_witness :
    (gray2D 4 4 7).channels = 1 ∧
      encodeForDownload (gray2D 4 4 7) 0 85 = some ⟨.PNG, 9, 4, 4, 1⟩ ∧
      (solidBitmap 4 4 9 9 9).channels = 3 ∧
      encodeForDownload (solidBitmap 4 4 9 9 9) 0 85 = some ⟨.JPEG, 85, 4, 4, 3⟩ :=
  ⟨rfl, c6_encoder_dispatch_level_ignored.2.1 (gray2D 4 4 7) 0 85 rfl, rfl,
    c6_encoder_dispatch_level_ignored.2.2 (solidBitmap 4 4 9 9 9) 0 85 rfl⟩

/-- C7: the Edge Detection branch is exactly the pipeline grayscale
conversion → 5×5 Gaussian smoothing (sigma derived from the kernel size) →
gradient/hysteresis thresholding with the two slider values as low/high
bounds; the output is single-channel with every sample 0 or 255, dimensions
are preserved, and a uniform-color input yields an all-zero edge map. -/
theorem c7_edge_detect_props (b : Bitmap) (rp low high cq jq c0 c1 c2 : Nat)
    (hc : b.channels = 3) (hh : 0 < b.height) (hw : 0 < b.width)
    (hlo : low ≤ 255) (hhi : high ≤ 255) :
    ∃ e, process_image b .EdgeDetection rp low high cq jq = some (e, e) ∧
      e = canny low high (gaussianBlur5 (grayOf b)) ∧
      e.height = b.height ∧ e.width = b.width ∧ e.channels = 1 ∧
      (∀ i j, e.pix i j 0 = 0 ∨ e.pix i j 0 = 255) ∧
      (Solid b c0 c1 c2 → ∀ i j, e.pix i j 0 = 0) := by
  refine ⟨canny low high (gaussianBlur5 (grayOf b)), ?_, rfl, rfl, rfl, rfl, ?_, ?_⟩
  · unfold process_image
    show (cvtColorBGR2GRAY b).bind (fun g => some (canny low high (gaussianBlur5 g),
      canny low high (gaussianBlur5 g))) = _
    simp [cvtColorBGR2GRAY, hc]
  · intro i j
    show (if hystIter (gaussianBlur5 (grayOf b)) (min low high) (max low high)
        ((gaussianBlur5 (grayOf b)).height * (gaussianBlur5 (grayOf b)).width) i j
      then (255 : Nat) else 0) = 0 ∨
      (if hystIter (gaussianBlur5 (grayOf b)) (min low high) (max low high)
        ((gaussianBlur5 (grayOf b)).height * (gaussianBlur5 (grayOf b)).width) i j
      then (255 : Nat) else 0) = 255
    cases hystIter (gaussianBlur5 (grayOf b)) (min low high) (max low high)
        ((gaussianBlur5 (grayOf b)).height * (gaussianBlur5 (grayOf b)).width) i j
    · exact Or.inl rfl
    · exact Or.inr rfl
  · intro hs i j
    have hgray : ∀ i j, i < (grayOf b).height → j < (grayOf b).width →
        (grayOf b).pix i j 0 = lumaY c0 c1 c2 := by
      intro i j hi hj
      obtain ⟨h0, h1, h2⟩ := hs i j hi hj
      show lumaY (b.pix i j 0) (b.pix i j 1) (b.pix i j 2) = _
      rw [h0, h1, h2]
    have hblur : ∀ i j, i < (gaussianBlur5 (grayOf b)).height →
        j < (gaussianBlur5 (grayOf b)).width →
        (gaussianBlur5 (grayOf b)).pix i j 0 = lumaY c0 c1 c2 := by
      intro i j _ _
      exact blurPixel_const (grayOf b) (lumaY c0 c1 c2) hh hw hgray i j
    show (if hystIter (gaussianBlur5 (grayOf b)) (min low high) (max low high)
        ((gaussianBlur5 (grayOf b)).height * (gaussianBlur5 (grayOf b)).width) i j
      then (255 : Nat) else 0) = 0
    rw [hystIter_const_false (gaussianBlur5 (grayOf b)) (lumaY c0 c1 c2) hh hw hblur
      (min low high) (max low high)
      ((gaussianBlur5 (grayOf b)).height * (gaussianBlur5 (grayOf b)).width) i j]
    rfl

/-- Witness for C7: a 3×3 solid-color bitmap with thresholds 50/150 yields a
single-channel, all-zero edge map. -/
theorem c7_edge_detect_props_witness :
    (solidBitmap 3 3 10 20 200).channels = 3 ∧ 0 < (solidBitmap 3 3 10 20 200).height ∧
      0 < (solidBitmap 3 3 10 20 200).width ∧ 50 ≤ 255 ∧ 150 ≤ 255 ∧
      ∃ e, process_image (solidBitmap 3 3 10 20 200) .EdgeDetection 100 50 150 6 85 =
          some (e, e) ∧
        e = canny 50 150 (gaussianBlur5 (grayOf (solidBitmap 3 3 10 20 200))) ∧
        e.height = (solidBitmap 3 3 10 20 200).height ∧
        e.width = (solidBitmap 3 3 10 20 200).width ∧ e.channels = 1 ∧
        (∀ i j, e.pix i j 0 = 0 ∨ e.pix i j 0 = 255) ∧
        (Solid (solidBitmap 3 3 10 20 200) 10 20 200 → ∀ i j, e.pix i j 0 = 0) :=
  ⟨rfl, by decide, by decide, by decide, by decide,
    c7_edge_detect_props (solidBitmap 3 3 10 20 200) 100 50 150 6 85 10 20 200 rfl
      (by decide) (by decide) (by decide) (by decide)⟩

/-- C8: every transform kind's download artifact is named
`processed_<transformkind-lowercase>.jpg` with MIME `image/jpeg`, even though
the single-channel (grayscale / edge-map) outputs are PNG-encoded. -/
theorem c8_download_name_quirk :
    downloadFileName .Resized = "processed_resized.jpg" ∧
    downloadFileName .Grayscale = "processed_grayscale.jpg" ∧
    downloadFileName .EdgeDetection = "processed_edge detection.jpg" ∧
    downloadMime = "image/jpeg" ∧
    (∀ t, ∃ stem, downloadFileName t = stem ++ ".jpg") ∧
    (∀ b cq jq, b.channels = 1 →
      ∃ a, encodeForDownload b cq jq = some a ∧ a.format = .PNG) := by
  refine ⟨by decide, by decide, by decide, rfl, fun t => ?_, fun b cq jq h1 => ?_⟩
  · cases t with
    | Resized => exact ⟨"processed_resized", by decide⟩
    | Grayscale => exact ⟨"processed_grayscale", by decide⟩
    | EdgeDetection => exact ⟨"processed_edge detection", by decide⟩
  · refine ⟨⟨.PNG, pillowZlibLevel (pngSaveKwargs cq), b.height, b.width, 1⟩, ?_, rfl⟩
    simp [encodeForDownload, h1]

/-- Witness for C8 at a concrete single-channel edge-map-shaped bitmap. -/
theorem c8_download_name_quirk_witness :
    (gray2D 4 4 0).channels = 1 ∧
      ∃ a, encodeForDownload (gray2D 4 4 0) 6 85 = some a ∧ a.format = .PNG :=
  ⟨rfl, c8_download_name_quirk.2.2.2.2.2 (gray2D 4 4 0) 6 85 rfl⟩

/-- C9: `convert_to_cv2` yields `None` on a 2-D (single-channel) source
array, because `COLOR_RGB2BGR` demands a 3- or 4-channel input; in general a
canonical bitmap is produced exactly for 3- and 4-channel sources. -/
theorem c9_convert_requires_color (np : Bitmap) :
    (np.channels = 1 → convert_to_cv2 np = none) ∧
    ((∃ b, convert_to_cv2 np = some b) ↔ np.channels = 3 ∨ np.channels = 4) := by
  constructor
  · intro h
    simp [convert_to_cv2, cvtColorSwapRB, cvtColorRGBA2RGB, h]
  · by_cases h4 : np.channels = 4
    · simp [convert_to_cv2, cvtColorSwapRB, cvtColorRGBA2RGB, h4]
    · by_cases h3 : np.channels = 3 <;>
        simp [convert_to_cv2, cvtColorSwapRB, cvtColorRGBA2RGB, h3, h4]

/-- C2 counterexample: a 5×5 bitmap (positive dimensions) at
`resizePercent = 10` floors both target dimensions to `int(0.5) = 0`, at
which `cv2.resize` raises, so the Resized branch produces no bitmap at all —
refuting the claim for every bitmap with positive dimensions and every
percentage in 10–200. -/
theorem c2_resize_zero_target_cex :
    process_image (solidBitmap 5 5 128 128 128) .Resized 10 100 200 6 85 = none := by
  rw [resized_run _ _ _ _ _ _ (by decide)]
  rfl

/-- C2 amended: whenever both floored target dimensions are still positive,
the Resized branch with an active percentage produces a bitmap whose width
and height are `floor(original × resizePercent / 100)` on each axis
independently; at `resizePercent = 50` both dimensions are
`floor(original / 2)`. -/
theorem c2_resize_dims_amended (b : Bitmap) (p el eh cq jq : Nat)
    (hc : b.channels = 3) (hh : 0 < b.height) (hw : 0 < b.width)
    (hp1 : 10 ≤ p) (hp2 : p ≤ 200) (hp : p ≠ 100)
    (hw1 : 1 ≤ b.width * p / 100) (hh1 : 1 ≤ b.height * p / 100) :
    ∃ out disp, process_image b .Resized p el eh cq jq = some (out, disp) ∧
      out.width = b.width * p / 100 ∧ out.height = b.height * p / 100 ∧
      (p = 50 → out.width = b.width / 2 ∧ out.height = b.height / 2) := by
  rw [resized_run b p el eh cq jq hp]
  have hres : cvResize b (b.width * p / 100) (b.height * p / 100) =
      some ⟨b.height * p / 100, b.width * p / 100, b.channels,
        fun i j c => boxAverage b (b.height * p / 100) (b.width * p / 100) i j c⟩ := by
    unfold cvResize
    rw [if_neg (by omega)]
  rw [hres]
  have henc : imencodeJpg jq
      ⟨b.height * p / 100, b.width * p / 100, b.channels,
        fun i j c => boxAverage b (b.height * p / 100) (b.width * p / 100) i j c⟩ =
      some ⟨jq, b.height * p / 100, b.width * p / 100, b.channels,
        fun i j c => boxAverage b (b.height * p / 100) (b.width * p / 100) i j c⟩ := by
    unfold imencodeJpg
    rw [if_pos]
    exact ⟨Or.inr (Or.inl hc), hh1, hw1⟩
  rw [Option.some_bind, henc, Option.some_bind]
  refine ⟨_, _, rfl, rfl, rfl, fun h50 => ?_⟩
  subst h50
  constructor
  · show b.width * 50 / 100 = b.width / 2
    omega
  · show b.height * 50 / 100 = b.height / 2
    omega

/-- Witness for C2's amended theorem: a 4×4 solid bitmap at 50% resizes to
2×2. -/
theorem c2_resize_dims_amended_witness :
    (solidBitmap 4 4 3 3 3).channels = 3 ∧ 0 < (solidBitmap 4 4 3 3 3).height ∧
      0 < (solidBitmap 4 4 3 3 3).width ∧ 10 ≤ 50 ∧ 50 ≤ 200 ∧ 50 ≠ 100 ∧
      1 ≤ (solidBitmap 4 4 3 3 3).width * 50 / 100 ∧
      1 ≤ (solidBitmap 4 4 3 3 3).height * 50 / 100 ∧
      ∃ out disp,
        process_image (solidBitmap 4 4 3 3 3) .Resized 50 100 200 6 85 = some (out, disp) ∧
        out.width = (solidBitmap 4 4 3 3 3).width * 50 / 100 ∧
        out.height = (solidBitmap 4 4 3 3 3).height * 50 / 100 ∧
        (50 = 50 → out.width = (solidBitmap 4 4 3 3 3).width / 2 ∧
          out.height = (solidBitmap 4 4 3 3 3).height / 2) :=
  ⟨rfl, by decide, by decide, by decide, by decide, by decide, by decide, by decide,
    c2_resize_dims_amended (solidBitmap 4 4 3 3 3) 50 100 200 6 85 rfl (by decide) (by decide)
      (by decide) (by decide) (by decide) (by decide) (by decide)⟩

/-- C4: with an active percentage the Resized branch is exactly the two-stage
contract: area-resample to the floored target size, then immediately
round-trip the resampled bitmap through a JPEG encode at `jpegQuality`
followed by a color decode, returning the decoded result as the processed
bitmap (failure of either stage propagates as no output). -/
theorem c4_resize_then_jpeg_roundtrip (b : Bitmap) (p el eh cq jq : Nat) (hp : p ≠ 100) :
    (process_image b .Resized p el eh cq jq).map Prod.fst =
      (cvResize b (b.width * p / 100) (b.height * p / 100)).bind (jpegRoundTrip jq) := by
  rw [resized_run b p el eh cq jq hp]
  cases cvResize b (b.width * p / 100) (b.height * p / 100) with
  | none => rfl
  | some r =>
    simp only [Option.some_bind]
    cases he : imencodeJpg jq r with
    | none => simp [jpegRoundTrip, he]
    | some e => simp [jpegRoundTrip, he]

/-- Witness for C4 at a concrete 4×4 solid bitmap and 50%. -/
theorem c4_resize_then_jpeg_roundtrip_witness :
    (50 ≠ 100) ∧
      (process_image (solidBitmap 4 4 3 3 3) .Resized 50 100 200 6 85).map Prod.fst =
        (cvResize (solidBitmap 4 4 3 3 3)
            ((solidBitmap 4 4 3 3 3).width * 50 / 100)
            ((solidBitmap 4 4 3 3 3).height * 50 / 100)).bind (jpegRoundTrip 85) :=
  ⟨by decide, c4_resize_then_jpeg_roundtrip (solidBitmap 4 4 3 3 3) 50 100 200 6 85 (by decide)⟩

/-- C10: any bitmap the Resized branch returns (active percentage) came
through `cv2.imdecode(..., IMREAD_COLOR)` and therefore has exactly 3
channels, so the download encoder always takes its JPEG branch on it. -/
theorem c10_resized_output_is_jpeg_encoded (b : Bitmap) (p el eh cq jq : Nat)
    (out disp : Bitmap) (hp : p ≠ 100)
    (hrun : process_image b .Resized p el eh cq jq = some (out, disp)) :
    out.channels = 3 ∧
      encodeForDownload out cq jq = some ⟨.JPEG, jq, out.height, out.width, 3⟩ := by
  rw [resized_run b p el eh cq jq hp] at hrun
  rcases hr : cvResize b (b.width * p / 100) (b.height * p / 100) with _ | r <;>
    rw [hr] at hrun
  · exact absurd hrun (by simp)
  · simp only [Option.some_bind] at hrun
    rcases he : imencodeJpg jq r with _ | e <;> rw [he] at hrun
    · exact absurd hrun (by simp)
    · simp only [Option.some_bind, Option.some_inj] at hrun
      have hout : out = imdecodeColor e := congrArg Prod.fst hrun.symm
      subst hout
      refine ⟨rfl, ?_⟩
      simp [encodeForDownload, imdecodeColor]

/-- Witness for C10: the concrete 4×4 at 50% run, whose output is
JPEG-encoded at quality 85. -/
theorem c10_resized_output_is_jpeg_encoded_witness :
    (50 ≠ 100) ∧
      process_image (solidBitmap 4 4 3 3 3) .Resized 50 100 200 6 85 =
        some (((process_image (solidBitmap 4 4 3 3 3) .Resized 50 100 200 6 85).getD
            (gray2D 0 0 0, gray2D 0 0 0)).1,
          ((process_image (solidBitmap 4 4 3 3 3) .Resized 50 100 200 6 85).getD
            (gray2D 0 0 0, gray2D 0 0 0)).2) ∧
      ((process_image (solidBitmap 4 4 3 3 3) .Resized 50 100 200 6 85).getD
          (gray2D 0 0 0, gray2D 0 0 0)).1.channels = 3 :=
  ⟨by decide, rfl,
    (c10_resized_output_is_jpeg_encoded (solidBitmap 4 4 3 3 3) 50 100 200 6 85 _ _
      (by decide) rfl).1⟩

/-- Witness for C9: a 5×5 grayscale (2-D) source converts to `None`, and a
5×5 RGB source converts successfully. -/
theorem c9_convert_requires_color_witness :
    (gray2D 5 5 7).channels = 1 ∧ convert_to_cv2 (gray2D 5 5 7) = none ∧
      ((∃ b, convert_to_cv2 (solidBitmap 5 5 1 2 3) = some b) ↔
        (solidBitmap 5 5 1 2 3).channels = 3 ∨ (solidBitmap 5 5 1 2 3).channels = 4) :=
  ⟨rfl, (c9_convert_requires_color (gray2D 5 5 7)).1 rfl,
    (c9_convert_requires_color (solidBitmap 5 5 1 2 3)).2⟩

end VisionApp
